import Mathlib

/-
Verification development for the Schneider AI Code Reviewer.

The definitions below are shallow embeddings of the program's source:
- the VS Code extension client (`llmClient.ts`, `extension.ts`, `chatbotView.ts`), and
- the backend response parser `parse_llm_response`, whose Python source is quoted
  verbatim in the repository's deployment guide.

JavaScript/Python conventions are made explicit: truthiness checks on numbers and
strings become explicit tests against 0 / "", optional (possibly `undefined`)
fields become `Option`, thrown exceptions become `Except`/`Option`, and awaited
asynchronous calls become explicit sequencing.  JSON numbers are modelled as
integers (all numbers relevant to the program - line numbers, scores - are
integers).
-/

namespace Schneider

/-- JSON values, with numbers modelled as integers. -/
inductive Json where
  | null
  | jbool (b : Bool)
  | jnum (n : Int)
  | jstr (s : String)
  | jarr (xs : List Json)
  | jobj (kvs : List (String × Json))

/-- The opening curly brace character (written via its code point). -/
def obrace : Char := Char.ofNat 123

/-- The closing curly brace character (written via its code point). -/
def cbrace : Char := Char.ofNat 125

/-- Skip JSON inter-token whitespace (space, tab, CR, LF), as `json.loads` does. -/
def skipWs : List Char → List Char
  | [] => []
  | c :: cs => if c.isWhitespace then skipWs cs else c :: cs

/-- Value of a single-character JSON string escape (after the backslash). -/
def escChar (c : Char) : Option Char :=
  if c = '"' then some '"'
  else if c = '\\' then some '\\'
  else if c = '/' then some '/'
  else if c = 'n' then some '\n'
  else if c = 't' then some '\t'
  else if c = 'r' then some '\r'
  else if c = 'b' then some (Char.ofNat 8)
  else if c = 'f' then some (Char.ofNat 12)
  else none

/-- Value of a hexadecimal digit, for a `\uXXXX` escape. -/
def hexVal (c : Char) : Option Nat :=
  if '0' ≤ c ∧ c ≤ '9' then some (c.toNat - 48)
  else if 'a' ≤ c ∧ c ≤ 'f' then some (c.toNat - 87)
  else if 'A' ≤ c ∧ c ≤ 'F' then some (c.toNat - 55)
  else none

/-- Parse the body of a JSON string literal (the opening quote already consumed);
returns the decoded characters and the input remaining after the closing quote.
The fuel argument bounds the recursion; every step consumes at least one input
character, so fuel `length + 1` is always sufficient. -/
def parseStrChars : Nat → List Char → Option (List Char × List Char)
  | 0, _ => none
  | _, [] => none
  | fuel + 1, c :: cs =>
    if c = '"' then some ([], cs)
    else if c = '\\' then
      match cs with
      | [] => none
      | e :: cs2 =>
        if e = 'u' then
          match cs2 with
          | h1 :: h2 :: h3 :: h4 :: cs3 =>
            match hexVal h1, hexVal h2, hexVal h3, hexVal h4 with
            | some a, some b, some c2, some d =>
              match parseStrChars fuel cs3 with
              | some (s, r) => some (Char.ofNat (((a * 16 + b) * 16 + c2) * 16 + d) :: s, r)
              | none => none
            | _, _, _, _ => none
          | _ => none
        else
          match escChar e with
          | some ec =>
            match parseStrChars fuel cs2 with
            | some (s, r) => some (ec :: s, r)
            | none => none
          | none => none
    else
      match parseStrChars fuel cs with
      | some (s, r) => some (c :: s, r)
      | none => none

/-- Take the maximal run of decimal digits from the front of the input. -/
def takeDigits : List Char → List Char × List Char
  | [] => ([], [])
  | c :: cs =>
    if c.isDigit then
      let (ds, r) := takeDigits cs
      (c :: ds, r)
    else ([], c :: cs)

/-- Numeric value of a run of decimal digits. -/
def digitsToNat (ds : List Char) : Nat :=
  ds.foldl (fun a c => a * 10 + (c.toNat - 48)) 0

/-- Parse a JSON number (modelled as an optionally negated run of digits). -/
def parseNum : List Char → Option (Int × List Char)
  | [] => none
  | c :: cs =>
    if c = '-' then
      match takeDigits cs with
      | ([], _) => none
      | (ds, r) => some (-(digitsToNat ds : Int), r)
    else if c.isDigit then
      let (ds, r) := takeDigits (c :: cs)
      some ((digitsToNat ds : Int), r)
    else none

mutual

/-- Parse one JSON value; fuel bounds recursion depth.  Returns the value and the
remaining input. -/
def parseVal : Nat → List Char → Option (Json × List Char)
  | 0, _ => none
  | fuel + 1, cs =>
    match skipWs cs with
    | [] => none
    | c :: rest =>
      if c = '[' then
        match skipWs rest with
        | [] => none
        | c2 :: r2 =>
          if c2 = ']' then some (.jarr [], r2)
          else
            match parseArrItems fuel (c2 :: r2) with
            | some (xs, r3) => some (.jarr xs, r3)
            | none => none
      else if c = obrace then
        match skipWs rest with
        | [] => none
        | c2 :: r2 =>
          if c2 = cbrace then some (.jobj [], r2)
          else
            match parseObjItems fuel (c2 :: r2) with
            | some (kvs, r3) => some (.jobj kvs, r3)
            | none => none
      else if c = '"' then
        match parseStrChars (rest.length + 1) rest with
        | some (s, r) => some (.jstr ⟨s⟩, r)
        | none => none
      else if c = 't' then
        match rest with
        | 'r' :: 'u' :: 'e' :: r => some (.jbool true, r)
        | _ => none
      else if c = 'f' then
        match rest with
        | 'a' :: 'l' :: 's' :: 'e' :: r => some (.jbool false, r)
        | _ => none
      else if c = 'n' then
        match rest with
        | 'u' :: 'l' :: 'l' :: r => some (.null, r)
        | _ => none
      else
        match parseNum (c :: rest) with
        | some (n, r) => some (.jnum n, r)
        | none => none

/-- Parse the comma-separated items of a nonempty JSON array, up to and including
the closing bracket. -/
def parseArrItems : Nat → List Char → Option (List Json × List Char)
  | 0, _ => none
  | fuel + 1, cs =>
    match parseVal fuel cs with
    | none => none
    | some (v, r) =>
      match skipWs r with
      | [] => none
      | c :: r2 =>
        if c = ',' then
          match parseArrItems fuel r2 with
          | some (xs, r3) => some (v :: xs, r3)
          | none => none
        else if c = ']' then some ([v], r2)
        else none

/-- Parse the comma-separated members of a nonempty JSON object, up to and
including the closing brace. -/
def parseObjItems : Nat → List Char → Option (List (String × Json) × List Char)
  | 0, _ => none
  | fuel + 1, cs =>
    match skipWs cs with
    | [] => none
    | c :: rest =>
      if c = '"' then
        match parseStrChars (rest.length + 1) rest with
        | some (k, r) =>
          match skipWs r with
          | [] => none
          | c2 :: r2 =>
            if c2 = ':' then
              match parseVal fuel r2 with
              | some (v, r3) =>
                match skipWs r3 with
                | [] => none
                | c3 :: r4 =>
                  if c3 = ',' then
                    match parseObjItems fuel r4 with
                    | some (kvs, r5) => some ((⟨k⟩, v) :: kvs, r5)
                    | none => none
                  else if c3 = cbrace then some ([(⟨k⟩, v)], r4)
                  else none
              | none => none
            else none
        | none => none
      else none

end

/-- Embedding of Python `json.loads` on a character list: parse a complete JSON
document, allowing surrounding whitespace and nothing else; `none` models
`json.JSONDecodeError`.  The fuel `2 * length + 2` is ample: every two fuel
steps consume at least one input character. -/
def json_loadsChars (cs : List Char) : Option Json :=
  match parseVal (2 * cs.length + 2) cs with
  | some (v, rest) => if skipWs rest = [] then some v else none
  | none => none

/-- Embedding of Python `json.loads` on a string. -/
def json_loads (s : String) : Option Json :=
  json_loadsChars s.data

/-- The backtick character (written via its code point). -/
def btick : Char := Char.ofNat 96

/-- Python `str.strip()`: drop leading and trailing whitespace. -/
def pyStrip (cs : List Char) : List Char :=
  (skipWs (skipWs cs).reverse).reverse

/-- Python `str.startswith('[')` on the (already stripped) reply. -/
def startsWithBracket : List Char → Bool
  | [] => false
  | c :: _ => c = '['

/-- Python `ai_response.replace('```json', '')`: remove every occurrence of the
json-tagged code-fence opener, scanning left to right without overlap. -/
def stripFencesJsonFuel : Nat → List Char → List Char
  | 0, cs => cs
  | _, [] => []
  | fuel + 1, c :: rest =>
    match rest with
    | c2 :: c3 :: 'j' :: 's' :: 'o' :: 'n' :: r =>
      if c = btick ∧ c2 = btick ∧ c3 = btick then stripFencesJsonFuel fuel r
      else c :: stripFencesJsonFuel fuel rest
    | _ => c :: stripFencesJsonFuel fuel rest

/-- Fuel entry point for `stripFencesJsonFuel`; each step consumes at least one
character, so fuel equal to the length is sufficient and the fuel-exhausted
branch is unreachable. -/
def stripFencesJson (cs : List Char) : List Char :=
  stripFencesJsonFuel cs.length cs

/-- Python `.replace('```', '')`: remove every remaining triple-backtick fence,
scanning left to right without overlap. -/
def stripFence3Fuel : Nat → List Char → List Char
  | 0, cs => cs
  | _, [] => []
  | fuel + 1, c :: rest =>
    match rest with
    | c2 :: c3 :: r =>
      if c = btick ∧ c2 = btick ∧ c3 = btick then stripFence3Fuel fuel r
      else c :: stripFence3Fuel fuel rest
    | _ => c :: stripFence3Fuel fuel rest

/-- Fuel entry point for `stripFence3Fuel`; each step consumes at least one
character, so fuel equal to the length is sufficient and the fuel-exhausted
branch is unreachable. -/
def stripFence3 (cs : List Char) : List Char :=
  stripFence3Fuel cs.length cs

/-- The two fence-stripping replacements of the backend, in the backend's order. -/
def stripFences (cs : List Char) : List Char :=
  stripFence3 (stripFencesJson cs)

/-- The suffix of the input starting at its first array-opening bracket. -/
def dropToBracket : List Char → Option (List Char)
  | [] => none
  | c :: cs => if c = '[' then some (c :: cs) else dropToBracket cs

/-- The suffix of the input starting at its first array-closing bracket. -/
def dropToRB : List Char → Option (List Char)
  | [] => none
  | c :: cs => if c = ']' then some (c :: cs) else dropToRB cs

/-- The substring matched by the backend's greedy regular-expression search for
an array-shaped span: from the first array-opening bracket of the reply to the
last array-closing bracket after it (Python `re.search` with a greedy
bracket-anything-bracket pattern finds the leftmost-longest such span). -/
def extractBracketSpan (cs : List Char) : Option (List Char) :=
  match dropToBracket cs with
  | none => none
  | some suf =>
    match dropToRB suf.reverse with
    | none => none
    | some r => some r.reverse

/-- Elements of a decoded JSON array; any other decode outcome contributes the
empty list.  In `parse_llm_response` every successfully decoded value is an
array, because each parse site requires the parsed text to start with the
array-opening token. -/
def arrElems : Option Json → List Json
  | some (Json.jarr xs) => xs
  | _ => []

/-- Embedding of the backend's `parse_llm_response` (its Python source is quoted
in the deployment guide): attempt a direct parse when the stripped reply starts
with the array-opening token; else strip the known code-fence markers and retry
the direct parse; else extract the greedy first-bracket-to-last-bracket span and
parse it; else return the empty list.  A decode error at any stage
(`json_loads` returning `none`) also yields the empty list, mirroring the
`except json.JSONDecodeError` handler wrapped around the whole chain. -/
def parse_llm_response (s : String) : List Json :=
  let cs := s.data
  if startsWithBracket (pyStrip cs) then arrElems (json_loadsChars cs)
  else
    let clean := stripFences cs
    if startsWithBracket (pyStrip clean) then arrElems (json_loadsChars clean)
    else
      match extractBracketSpan cs with
      | some sub => arrElems (json_loadsChars sub)
      | none => []

/-- Scan for the array-closing bracket matching an already-open array-opening
bracket; `depth` counts currently open brackets and `acc` accumulates the
scanned characters in reverse. -/
def scanBalanced : Nat → List Char → List Char → Option (List Char)
  | _, _, [] => none
  | depth, acc, c :: rest =>
    if c = '[' then scanBalanced (depth + 1) (c :: acc) rest
    else if c = ']' then
      match depth with
      | 0 => none
      | 1 => some (c :: acc).reverse
      | d + 2 => scanBalanced (d + 1) (c :: acc) rest
    else scanBalanced depth (c :: acc) rest

/-- Written from the claim's words, for comparison with the code: the first
balanced array-shaped substring anywhere in the reply. -/
def firstBalancedArray : List Char → Option (List Char)
  | [] => none
  | c :: rest =>
    if c = '[' then
      match scanBalanced 1 [c] rest with
      | some sub => some sub
      | none => firstBalancedArray rest
    else firstBalancedArray rest

/-- The parse pipeline exactly as the claim states it: identical to
`parse_llm_response` except that the third stage extracts the first balanced
array-shaped substring rather than the greedy first-to-last bracket span. -/
def parse_per_claim (s : String) : List Json :=
  let cs := s.data
  if startsWithBracket (pyStrip cs) then arrElems (json_loadsChars cs)
  else
    let clean := stripFences cs
    if startsWithBracket (pyStrip clean) then arrElems (json_loadsChars clean)
    else
      match firstBalancedArray cs with
      | some sub => arrElems (json_loadsChars sub)
      | none => []

/-- First fallback strategy of the amended contract: direct parse, applicable
when the stripped reply starts with the array-opening token. -/
def tryDirect (s : String) : Option (List Json) :=
  if startsWithBracket (pyStrip s.data) then some (arrElems (json_loadsChars s.data))
  else none

/-- Second fallback strategy: strip the known code-fence markers, then parse
directly if the stripped result starts with the array-opening token. -/
def tryUnfenced (s : String) : Option (List Json) :=
  let clean := stripFences s.data
  if startsWithBracket (pyStrip clean) then some (arrElems (json_loadsChars clean))
  else none

/-- Third fallback strategy: extract the span from the first array-opening
bracket to the last array-closing bracket and parse it. -/
def trySpan (s : String) : Option (List Json) :=
  match extractBracketSpan s.data with
  | some sub => some (arrElems (json_loadsChars sub))
  | none => none

/-- The ordered fallback strategies of the amended contract, first success wins. -/
def parseStrategies : List (String → Option (List Json)) :=
  [tryDirect, tryUnfenced, trySpan]

/-- The amended contract as an ordered fold over the strategy list: the first
applicable strategy's result, or the empty list when none applies. -/
def parse_amended_spec (s : String) : List Json :=
  (parseStrategies.findSome? (fun f => f s)).getD []

/-- One transport attempt as the remote server behaves: either an HTTP response
with a status code and a typed body, or no response at all (network failure or
timeout). -/
inductive ServerOutcome (α : Type) where
  | http (status : Nat) (body : α)
  | network

/-- Errors observable inside `makeRequest`'s retry loop.  `plainHttp` is the
hand-thrown `new Error` for a resolved response with status 400 or above (axios
resolves every response with status below 500 because of the configured
`validateStatus`); `axiosHttp` is an axios rejection carrying a response
(status 500 or above under that `validateStatus`); `axiosNetwork` is an axios
rejection with no response (unreachable backend or timeout). -/
inductive ReqError where
  | plainHttp (status : Nat)
  | axiosHttp (status : Nat)
  | axiosNetwork
deriving DecidableEq

/-- The axios call with `validateStatus: (status) => status < 500`: resolves any
response with status below 500, rejects a response with status 500 or above as
an axios error, and rejects with no response on network failure. -/
def axiosCall {α : Type} : ServerOutcome α → Except ReqError (Nat × α)
  | .http s b => if s < 500 then .ok (s, b) else .error (.axiosHttp s)
  | .network => .error .axiosNetwork

/-- The body of one iteration of `makeRequest`'s retry loop: run the axios call
and hand-throw a plain error for a resolved response with status 400 or above. -/
def attemptOnce {α : Type} (t : Nat → ServerOutcome α) (k : Nat) : Except ReqError α :=
  match axiosCall (t k) with
  | .ok (s, b) => if 400 ≤ s then .error (.plainHttp s) else .ok b
  | .error e => .error e

/-- The no-retry guard of `makeRequest`, exactly as coded:
`axios.isAxiosError(error)` and a response status of 400, 401, 403 or 404.
A hand-thrown plain error is not an axios error and never passes the guard. -/
def noRetry : ReqError → Bool
  | .axiosHttp s => if s = 400 ∨ s = 401 ∨ s = 403 ∨ s = 404 then true else false
  | _ => false

/-- Result of a `makeRequest` run: the outcome, the number of attempts made,
and the list of backoff delays (in milliseconds) slept between attempts. -/
structure ReqTrace (α : Type) where
  result : Except ReqError α
  attempts : Nat
  delays : List Nat

/-- `makeRequest`'s retry loop from attempt index `attempt`, with `remaining`
further attempts allowed after the current one.  On an error the loop stops
early only when the no-retry guard fires; otherwise, while attempts remain, it
sleeps `1000 * (attempt + 1)` milliseconds and tries again.  This mirrors
`for (let attempt = 0; attempt <= this.retryAttempts; attempt++)` with
`await this.delay(1000 * (attempt + 1))` before each retry, and the final
`throw lastError`. -/
def runAttempts {α : Type} (t : Nat → ServerOutcome α) : Nat → Nat → ReqTrace α
  | attempt, 0 =>
    match attemptOnce t attempt with
    | .ok b => ⟨.ok b, 1, []⟩
    | .error e => ⟨.error e, 1, []⟩
  | attempt, r + 1 =>
    match attemptOnce t attempt with
    | .ok b => ⟨.ok b, 1, []⟩
    | .error e =>
      if noRetry e then ⟨.error e, 1, []⟩
      else
        let next := runAttempts t (attempt + 1) r
        ⟨next.result, next.attempts + 1, 1000 * (attempt + 1) :: next.delays⟩

/-- Embedding of `LLMClient.makeRequest` with `retryAttempts` retries allowed:
run the loop from attempt index 0. -/
def makeRequest {α : Type} (t : Nat → ServerOutcome α) (retryAttempts : Nat) : ReqTrace α :=
  runAttempts t 0 retryAttempts

/-- The client's configured retry count (`private retryAttempts: number = 2`). -/
def configuredRetryAttempts : Nat := 2

/-- The `/fix` endpoint's response body: a `success` flag and an optional
`fixed_code` field (an absent or empty string both fail JavaScript truthiness). -/
structure FixResp where
  success : Bool
  fixed_code : Option String

/-- Embedding of `LLMClient.fixCode`: return the server's fixed code when the
response is successful and carries truthy fixed code; on any thrown error — a
transport error, or the hand-thrown error when `success` or `fixed_code` is
falsy — the catch block returns the original code unchanged. -/
def fixCode (code : String) (resp : Except ReqError FixResp) : String :=
  match resp with
  | .error _ => code
  | .ok r =>
    match r.fixed_code with
    | some s => if r.success = true ∧ s ≠ "" then s else code
    | none => code

/-- The `/chat` endpoint's response body. -/
structure ChatResp where
  success : Bool
  reply : Option String

/-- The apology returned for an unsuccessful but delivered chat response. -/
def chatApology : String := "I apologize, but I encountered an error. Please try again."

/-- The placeholder returned when a successful chat response has a falsy reply. -/
def chatNoReply : String := "No response from AI"

/-- The fixed message for a server error (response status 500). -/
def chatInternalMsg : String :=
  "I encountered an internal error. The backend AI service may be experiencing issues. Please try again in a moment."

/-- The fixed message for an unreachable backend (no response at all). -/
def chatUnreachableMsg : String :=
  "I cannot reach the backend server. Please ensure it is running and try again."

/-- The generic fixed message for every other error. -/
def chatGenericMsg : String :=
  "I apologize, but I encountered an unexpected error. Please check the backend logs and try again."

/-- Embedding of `LLMClient.handleChatError`: a fixed message for an axios error
with response status 500, a fixed message for an axios error with no response,
and the generic fixed message otherwise. -/
def handleChatError : ReqError → String
  | .axiosHttp s => if s = 500 then chatInternalMsg else chatGenericMsg
  | .axiosNetwork => chatUnreachableMsg
  | .plainHttp _ => chatGenericMsg

/-- Embedding of `LLMClient.chat`: on a successful transport call return the
reply (or a fixed placeholder when the reply is falsy); on a delivered but
unsuccessful response body return a fixed apology; on a thrown error return
`handleChatError`'s message.  No branch rethrows. -/
def chat (resp : Except ReqError ChatResp) : String :=
  match resp with
  | .error e => handleChatError e
  | .ok r =>
    if r.success then
      match r.reply with
      | some s => if s ≠ "" then s else chatNoReply
      | none => chatNoReply
    else chatApology

/-- The host editor's three diagnostic severities used by the extension. -/
inductive DiagSeverity where
  | error
  | warning
  | information
deriving DecidableEq

/-- A finding as received by the extension (`any`-typed `issue` objects): every
field may be absent, and JavaScript truthiness decides the fallbacks. -/
structure Issue where
  rule : Option String
  message : Option String
  line : Option Int
  severity : Option String
  fix : Option String
deriving DecidableEq

/-- JavaScript `issue.line || 1`: an absent line and the falsy line 0 both
become 1. -/
def jsLineOr1 : Option Int → Int
  | none => 1
  | some l => if l = 0 then 1 else l

/-- The zero-based diagnostic line computed by `showDiagnostics`:
`Math.max(0, (issue.line || 1) - 1)`.  Note that no upper clamp against the
document's line count is applied — the document is not consulted at all. -/
def diagLine (line : Option Int) : Int :=
  max 0 (jsLineOr1 line - 1)

/-- Severity collapse of `showDiagnostics`: critical and error map to the
blocking severity, warning to the advisory severity, anything else to the
informational severity. -/
def diagSeverity (sev : Option String) : DiagSeverity :=
  if sev = some "critical" ∨ sev = some "error" then .error
  else if sev = some "warning" then .warning
  else .information

/-- One positioned diagnostic record as built by `showDiagnostics`
(the zero-based line, the collapsed severity, the message and the rule code). -/
structure Diagnostic where
  line : Int
  severity : DiagSeverity
  message : String
  code : String
deriving DecidableEq

/-- Embedding of `showDiagnostics` in `extension.ts`: one diagnostic per finding
— findings are never dropped — with the line mapped by `diagLine` and the
message and rule code defaulted when falsy.  The resulting set replaces the
previous diagnostic set for the document. -/
def showDiagnostics (issues : List Issue) : List Diagnostic :=
  issues.map fun i =>
    { line := diagLine i.line
      severity := diagSeverity i.severity
      message :=
        match i.message with
        | some m => if m ≠ "" then m else "Code quality issue detected"
        | none => "Code quality issue detected"
      code :=
        match i.rule with
        | some r => if r ≠ "" then r else "UNKNOWN"
        | none => "UNKNOWN" }

/-- Written from the claim's words, for comparison with the code: clamp a
one-based line into `[1, document_line_count]`. -/
def specClamp (line : Int) (docLineCount : Int) : Int :=
  min docLineCount (max 1 line)

/-- The three bands the webview renders for a score. -/
inductive Rating where
  | excellent
  | needsImprovement
  | poor
deriving DecidableEq

/-- Embedding of the webview's `showAnalysisResults` banding (`chatbotView.ts`
HTML): a score of at least 80 renders Excellent, at least 50 renders Needs
Improvement, anything lower renders Poor.  The same thresholds drive the score
colour and the summary chat message. -/
def webviewRating (score : Int) : Rating :=
  if score ≥ 80 then .excellent
  else if score ≥ 50 then .needsImprovement
  else .poor

/-- JavaScript `x || 0` on a possibly-absent number (0 is falsy, so the result
coincides with the number whenever one is present). -/
def jsNumOr0 : Option Int → Int
  | none => 0
  | some n => n

/-- The score field `LLMClient.analyzeCode` returns: `response.score || 0`. -/
def analyzeCodeScore (serverScore : Option Int) : Int :=
  jsNumOr0 serverScore

/-- The band rendered on the initial analyze path: `startAnalysis` hands
`analyzeCode`'s result to `ChatbotViewProvider.showAnalysisResults`, which posts
`result.score || 0` in an `analysisComplete` message handled by the webview's
banding function. -/
def ratingOnAnalyzePath (serverScore : Option Int) : Rating :=
  webviewRating (jsNumOr0 (some (analyzeCodeScore serverScore)))

/-- The band rendered on the post-fix re-analyze path: `handleFixCode` posts
`newResult.score` (the result of the same `analyzeCode`) in an
`analysisComplete` message handled by the same webview banding function. -/
def ratingOnReanalyzePath (serverScore : Option Int) : Rating :=
  webviewRating (analyzeCodeScore serverScore)

/-- A persisted history record (`AnalysisHistory` in `extension.ts`). -/
structure AnalysisHistory where
  timestamp : String
  fileName : String
  filePath : String
  score : Int
  grade : String
  issueCount : Nat
  fileType : String
deriving DecidableEq

/-- The history capacity hard-coded in `startAnalysis` (keep the last 50). -/
def historyCapacity : Nat := 50

/-- Embedding of the history update in `startAnalysis`:
`analysisHistory.unshift(historyEntry)` prepends the new entry
(most-recent-first), then `slice(0, 50)` truncates once the length exceeds the
capacity. -/
def historyAppend (h : List AnalysisHistory) (e : AnalysisHistory) : List AnalysisHistory :=
  let h2 := e :: h
  if h2.length > historyCapacity then h2.take historyCapacity else h2

/-- The store contents after appending the entries of `es`, oldest first,
starting from the empty store. -/
def historyAfter (es : List AnalysisHistory) : List AnalysisHistory :=
  es.foldl historyAppend []

/-- Severities of findings. -/
inductive Severity where
  | critical
  | error
  | warning
  | info
deriving DecidableEq

/-- A scored finding (only the severity matters to the score). -/
structure Finding where
  severity : Severity

/-- Modelled from the spec: the per-severity penalty of the backend ScoreEngine
(server `app.py`, which is absent from the repository's sources — only its
interface is documented).  Spec §4.5 and §8 fix that `score([]) = 100`, that
scores lie in `[0, 100]`, that a single warning scores 90 (Scenario A), and
that the score is a pure function of the finding set, monotonically
non-increasing in critical/error findings; the concrete critical/error/info
weights are an implementation choice consistent with those constraints. -/
def severityPenalty : Severity → Nat
  | .critical => 25
  | .error => 15
  | .warning => 10
  | .info => 5

/-- Modelled from the spec: the total penalty of a finding set. -/
def penaltySum (fs : List Finding) : Nat :=
  (fs.map (fun f => severityPenalty f.severity)).sum

/-- Modelled from the spec: the 0-100 score of a finding set — 100 minus the
penalty sum, clamped at 0. -/
def score (fs : List Finding) : Nat :=
  100 - min 100 (penaltySum fs)

/-- Observable events of `ChatbotViewProvider.handleFixCode`, in program order. -/
inductive FixEv where
  | warnedNoAnalysis
  | fixRequestSent (code : String)
  | fixResponseParsed (code : String)
  | reanalyzeRequestSent (code : String)
  | reanalyzeCompleted (score : Int)
  | reanalyzeFailedSilently

/-- The analysis result as the chat view stores it (the fields `handleFixCode`
reads). -/
structure AnalysisRes where
  score : Int
  issueCount : Nat

/-- The view state relevant to `handleFixCode`. -/
structure FixState where
  currentAnalysisResult : Option AnalysisRes
  currentCode : String

/-- Embedding of `ChatbotViewProvider.handleFixCode` as a trace of events: the
guard returns early when no analysis result or no code is held; otherwise the
fix call is awaited (through `LLMClient.fixCode`, which never throws and yields
either the fixed or the original code), its fully parsed result is stored, and
only then is the re-analysis request issued, with exactly the code the fix call
returned; a re-analysis failure is swallowed silently without reverting the
fix. -/
def handleFixCode (st : FixState) (fixResp : Except ReqError FixResp)
    (anaResp : Except ReqError AnalysisRes) : FixState × List FixEv :=
  match st.currentAnalysisResult with
  | none => (st, [.warnedNoAnalysis])
  | some _ =>
    if st.currentCode = "" then (st, [.warnedNoAnalysis])
    else
      let fixedCode := fixCode st.currentCode fixResp
      let st1 : FixState := { st with currentCode := fixedCode }
      match anaResp with
      | .ok r =>
        ({ st1 with currentAnalysisResult := some r },
         [.fixRequestSent st.currentCode, .fixResponseParsed fixedCode,
          .reanalyzeRequestSent fixedCode, .reanalyzeCompleted r.score])
      | .error _ =>
        (st1,
         [.fixRequestSent st.currentCode, .fixResponseParsed fixedCode,
          .reanalyzeRequestSent fixedCode, .reanalyzeFailedSilently])

/-- Whether an attempt outcome is an error that fires the no-retry guard. -/
def noRetryOf {α : Type} : Except ReqError α → Bool
  | .error e => noRetry e
  | .ok _ => false

/-- A sample history entry, used to instantiate universally quantified results
on concrete inputs. -/
def sampleEntry : AnalysisHistory :=
  ⟨"2025-01-01T00:00:00Z", "main.py", "/w/main.py", 0, "N/A", 0, "python"⟩

/-- `n` pairwise distinct sample history entries (distinguished by score),
oldest first. -/
def sampleEntries (n : Nat) : List AnalysisHistory :=
  (List.range n).map (fun i => { sampleEntry with score := (i : Int) })

/-- C3: the band the webview renders for a score is a fixed three-band step
function — Excellent for a score of at least 80, Needs Improvement for scores
from 50 up to 79, Poor below 50 — and the identical function is applied on the
initial analyze path and on the post-fix re-analyze path, so the same server
score always renders the same band on both paths. -/
theorem C3_grade_step_function_identical_on_both_paths :
    (∀ s : Option Int, ratingOnAnalyzePath s = ratingOnReanalyzePath s) ∧
    (∀ n : Int,
      (webviewRating n = Rating.excellent ↔ 80 ≤ n) ∧
      (webviewRating n = Rating.needsImprovement ↔ 50 ≤ n ∧ n < 80) ∧
      (webviewRating n = Rating.poor ↔ n < 50)) := by
  refine ⟨fun s => rfl, fun n => ?_⟩
  unfold webviewRating
  split_ifs with h1 h2 <;> refine ⟨?_, ?_, ?_⟩ <;> (simp_all; try omega)

/-- C6: the (spec-modelled) score engine is a pure total function with
`score [] = 100`, and inserting a finding of severity critical or error at any
position in a finding set can never increase the score. -/
theorem C6_score_empty_100_and_monotone :
    score [] = 100 ∧
    ∀ (l₁ l₂ : List Finding) (f : Finding),
      f.severity = Severity.critical ∨ f.severity = Severity.error →
      score (l₁ ++ f :: l₂) ≤ score (l₁ ++ l₂) := by
  refine ⟨rfl, fun l₁ l₂ f _ => ?_⟩
  have h : penaltySum (l₁ ++ l₂) ≤ penaltySum (l₁ ++ f :: l₂) := by
    unfold penaltySum
    simp only [List.map_append, List.sum_append, List.map_cons, List.sum_cons]
    omega
  unfold score
  omega

/-- Witness for C6: adding one critical finding to the empty set cannot raise
the score. -/
theorem C6_score_empty_100_and_monotone_witness :
    score [] = 100 ∧ score ([] ++ ⟨Severity.critical⟩ :: []) ≤ score ([] ++ []) :=
  ⟨C6_score_empty_100_and_monotone.1,
   C6_score_empty_100_and_monotone.2 [] [] ⟨Severity.critical⟩ (Or.inl rfl)⟩

/-- C7: `fixCode` never throws and never loses the caller's source — its result
is either exactly the original code (on any transport error, an unsuccessful
response, or a missing or empty fixed-code field) or the nonempty fixed code of
a successful response. -/
theorem C7_fixCode_returns_original_on_failure (code : String)
    (resp : Except ReqError FixResp) :
    fixCode code resp = code ∨
    ∃ r s, resp = Except.ok r ∧ r.success = true ∧ r.fixed_code = some s ∧
      s ≠ "" ∧ fixCode code resp = s := by
  cases resp with
  | error e => exact Or.inl rfl
  | ok r =>
    cases hf : r.fixed_code with
    | none => exact Or.inl (by simp [fixCode, hf])
    | some s =>
      by_cases hs : r.success = true ∧ s ≠ ""
      · exact Or.inr ⟨r, s, rfl, hs.1, hf, hs.2, by simp [fixCode, hf, hs]⟩
      · exact Or.inl (by simp [fixCode, hf, hs])

/-- C10: `chat` is total at the public interface — for every transport outcome
it returns a string that is either the server's own nonempty reply or one of
five fixed messages; in particular a server error (status 500) maps to the
fixed internal-error message and an unreachable backend (no response) to the
fixed cannot-reach message. -/
theorem C10_chat_never_throws_fixed_messages :
    (∀ resp : Except ReqError ChatResp,
      chat resp ∈
        [chatNoReply, chatApology, chatInternalMsg, chatUnreachableMsg, chatGenericMsg] ∨
      ∃ r s, resp = Except.ok r ∧ r.success = true ∧ r.reply = some s ∧ s ≠ "" ∧
        chat resp = s) ∧
    chat (Except.error (ReqError.axiosHttp 500)) = chatInternalMsg ∧
    chat (Except.error ReqError.axiosNetwork) = chatUnreachableMsg := by
  refine ⟨fun resp => ?_, rfl, rfl⟩
  cases resp with
  | error e =>
    left
    cases e with
    | plainHttp s => simp [chat, handleChatError]
    | axiosNetwork => simp [chat, handleChatError]
    | axiosHttp s => by_cases h : s = 500 <;> simp [chat, handleChatError, h]
  | ok r =>
    by_cases hs : r.success = true
    · cases hr : r.reply with
      | none => left; simp [chat, hs, hr]
      | some s =>
        by_cases hne : s = ""
        · left
          subst hne
          simp [chat, hs, hr]
        · exact Or.inr ⟨r, s, rfl, hs, hr, hne, by simp [chat, hs, hr, hne]⟩
    · left
      have hs' : r.success = false := by
        cases h : r.success
        · rfl
        · exact absurd h hs
      simp [chat, hs']

/-- C5 (amended): `parse_llm_response` is a total function equal, on every input
string, to the ordered first-success-wins fold of the three fallback strategies
(direct parse when the stripped reply opens an array; fence-stripped retry;
extraction of the span from the first array-opening bracket to the last
array-closing bracket), with the empty list returned when no strategy applies
and on every decode error — no input ever propagates an exception. -/
theorem C5_parse_never_fails_fallback_chain (s : String) :
    parse_llm_response s = parse_amended_spec s := by
  by_cases h1 : startsWithBracket (pyStrip s.data) = true
  · simp [parse_llm_response, parse_amended_spec, parseStrategies, List.findSome?,
      tryDirect, tryUnfenced, trySpan, h1]
  · by_cases h2 : startsWithBracket (pyStrip (stripFences s.data)) = true
    · simp [parse_llm_response, parse_amended_spec, parseStrategies, List.findSome?,
        tryDirect, tryUnfenced, trySpan, h1, h2]
    · cases h3 : extractBracketSpan s.data with
      | some sub =>
        simp [parse_llm_response, parse_amended_spec, parseStrategies, List.findSome?,
          tryDirect, tryUnfenced, trySpan, h1, h2, h3]
      | none =>
        simp [parse_llm_response, parse_amended_spec, parseStrategies, List.findSome?,
          tryDirect, tryUnfenced, trySpan, h1, h2, h3]

/-- C5 counterexample: on the reply `Here are the issues: [1] and also [2] done`
the claim's third stage (parse the first balanced array-shaped substring) would
yield the one-element array `[1]`, but the code's greedy span from the first
array-opening bracket to the last array-closing bracket is
`[1] and also [2]`, which fails to decode, so `parse_llm_response` returns the
empty list: the claim's description of stage 3 does not match the code. -/
theorem C5_counterexample :
    parse_llm_response "Here are the issues: [1] and also [2] done" = [] ∧
    parse_per_claim "Here are the issues: [1] and also [2] done" = [Json.jnum 1] ∧
    parse_llm_response "Here are the issues: [1] and also [2] done" ≠
      parse_per_claim "Here are the issues: [1] and also [2] done" := by
  have h1 : parse_llm_response "Here are the issues: [1] and also [2] done" = [] := rfl
  have h2 : parse_per_claim "Here are the issues: [1] and also [2] done" = [Json.jnum 1] := rfl
  refine ⟨h1, h2, ?_⟩
  rw [h1, h2]
  exact fun h => List.cons_ne_nil _ _ h.symm

/-- The history update always equals a prepend followed by a truncation to the
capacity (when the store is within capacity the truncation is the identity). -/
theorem historyAppend_eq_take (h : List AnalysisHistory) (e : AnalysisHistory) :
    historyAppend h e = (e :: h).take historyCapacity := by
  unfold historyAppend
  by_cases hl : (e :: h).length > historyCapacity
  · simp [hl]
  · simp only [hl, if_false]
    exact (List.take_of_length_le (by omega)).symm

/-- Truncating after an append from the left absorbs an inner truncation. -/
theorem take_append_take {α : Type} (n : Nat) (l x : List α) :
    (l ++ x.take n).take n = (l ++ x).take n := by
  rw [List.take_append_eq_append_take, List.take_append_eq_append_take, List.take_take]
  congr 1
  congr 1
  omega

/-- Folding the history update over a batch of entries, starting from any store
already within capacity, keeps exactly the newest `historyCapacity` entries,
most recent first. -/
theorem foldl_historyAppend (es : List AnalysisHistory) :
    ∀ acc : List AnalysisHistory, acc.take historyCapacity = acc →
      es.foldl historyAppend acc = (es.reverse ++ acc).take historyCapacity := by
  induction es with
  | nil =>
    intro acc hacc
    simpa using hacc.symm
  | cons e es ih =>
    intro acc hacc
    simp only [List.foldl_cons, List.reverse_cons, List.append_assoc, List.singleton_append]
    rw [historyAppend_eq_take]
    rw [ih _ (by rw [List.take_take]; simp)]
    exact take_append_take _ _ _

/-- C4: after `historyCapacity + 5` appends to the empty store, the store holds
exactly `historyCapacity` entries — the reverse of the batch minus its 5 oldest
entries, hence most-recent-first with the 5 oldest evicted — and no single
append ever grows a within-capacity store beyond the capacity. -/
theorem C4_history_capacity_fifo :
    (∀ es : List AnalysisHistory, es.length = historyCapacity + 5 →
      historyAfter es = (es.drop 5).reverse ∧
      (historyAfter es).length = historyCapacity) ∧
    (∀ (h : List AnalysisHistory) (e : AnalysisHistory),
      h.length ≤ historyCapacity → (historyAppend h e).length ≤ historyCapacity) := by
  constructor
  · intro es hlen
    have h1 : historyAfter es = (es.reverse).take historyCapacity := by
      unfold historyAfter
      rw [foldl_historyAppend es [] (by simp)]
      simp
    have h2 : (es.reverse).take historyCapacity = (es.drop 5).reverse := by
      rw [List.take_reverse, hlen]
      norm_num [historyCapacity]
    constructor
    · rw [h1, h2]
    · rw [h1, h2]
      simp [hlen]
  · intro h e hle
    rw [historyAppend_eq_take]
    simp

/-- Witness for C4: 55 concrete appends leave the 50 newest entries in
most-recent-first order, and one append to the empty store stays within
capacity. -/
theorem C4_history_capacity_fifo_witness :
    (historyAfter (sampleEntries 55) = ((sampleEntries 55).drop 5).reverse ∧
      (historyAfter (sampleEntries 55)).length = historyCapacity) ∧
    (historyAppend [] sampleEntry).length ≤ historyCapacity :=
  ⟨C4_history_capacity_fifo.1 (sampleEntries 55)
      (by simp only [sampleEntries, List.length_map, List.length_range]; rfl),
   C4_history_capacity_fifo.2 [] sampleEntry (by simp [historyCapacity])⟩

/-- C1 (code bug): the no-retry guard of `makeRequest` can never fire — with
`validateStatus` accepting every status below 500, a client-fault status
(400/401/403/404) is hand-thrown as a plain error, which is not an axios error,
so no attempt outcome ever satisfies the guard.  Concretely, a server answering
401 on every attempt is retried the full configured two times: three attempts
in total with backoff delays of 1000 ms and 2000 ms before the failure
surfaces, although the claim — and the code's own comment next to the guard —
requires an immediate failure with no retry for client faults. -/
theorem C1_client_faults_are_retried :
    (∀ (α : Type) (t : Nat → ServerOutcome α) (k : Nat),
      noRetryOf (attemptOnce t k) = false) ∧
    makeRequest (fun _ => ServerOutcome.http 401 ()) configuredRetryAttempts =
      ⟨Except.error (ReqError.plainHttp 401), 3, [1000, 2000]⟩ := by
  constructor
  · intro α t k
    cases htk : t k with
    | network => simp [noRetryOf, attemptOnce, axiosCall, htk, noRetry]
    | http st b =>
      by_cases h5 : st < 500
      · by_cases h4 : 400 ≤ st
        · simp [noRetryOf, attemptOnce, axiosCall, htk, h5, h4, noRetry]
        · simp [noRetryOf, attemptOnce, axiosCall, htk, h5, h4]
      · have hn : ¬(st = 400 ∨ st = 401 ∨ st = 403 ∨ st = 404) := by omega
        simp [noRetryOf, attemptOnce, axiosCall, htk, h5, noRetry, hn]
  · rfl

/-- Every run of the retry loop makes at least one and at most `remaining + 1`
attempts, and sleeps exactly the linearly growing backoff delays
`1000·(a+1), 1000·(a+2), …` between consecutive attempts, one delay per retry
actually performed. -/
theorem runAttempts_spec {α : Type} (t : Nat → ServerOutcome α) :
    ∀ r a : Nat,
      1 ≤ (runAttempts t a r).attempts ∧
      (runAttempts t a r).attempts ≤ r + 1 ∧
      (runAttempts t a r).delays =
        (List.range' (a + 1) ((runAttempts t a r).attempts - 1)).map
          (fun k => 1000 * k) := by
  intro r
  induction r with
  | zero =>
    intro a
    cases h : attemptOnce t a <;> simp [runAttempts, h]
  | succ n ih =>
    intro a
    cases h : attemptOnce t a with
    | ok b => simp [runAttempts, h]
    | error e =>
      by_cases hnr : noRetry e = true
      · simp [runAttempts, h, hnr]
      · have hnf : noRetry e = false := by
          cases hq : noRetry e
          · rfl
          · exact absurd hq hnr
        obtain ⟨hpos, hle, hdel⟩ := ih (a + 1)
        obtain ⟨m, hm⟩ : ∃ m, (runAttempts t (a + 1) n).attempts = m + 1 :=
          ⟨(runAttempts t (a + 1) n).attempts - 1, by omega⟩
        rw [hm] at hdel hle
        simp only [Nat.add_sub_cancel] at hdel
        simp only [runAttempts, h, hnf, Bool.false_eq_true, if_false]
        refine ⟨by omega, ?_, ?_⟩
        · simp only [hm]
          omega
        · simp only [hm, Nat.add_sub_cancel]
          rw [List.range'_succ, List.map_cons, hdel]

/-- C9: a `makeRequest` call makes at most `retryAttempts + 1` attempts in
total, and the backoff delays slept before the successive retries are exactly
1000·1, 1000·2, … milliseconds: the delay before retry attempt `k` is the base
1000 ms multiplied by `k`, and one delay is slept per retry performed. -/
theorem C9_backoff_linear_and_bounded (α : Type) (t : Nat → ServerOutcome α)
    (retryAttempts : Nat) :
    (makeRequest t retryAttempts).attempts ≤ retryAttempts + 1 ∧
    (makeRequest t retryAttempts).delays =
      (List.range' 1 ((makeRequest t retryAttempts).attempts - 1)).map
        (fun k => 1000 * k) := by
  obtain ⟨_, hle, hdel⟩ := runAttempts_spec t retryAttempts 0
  exact ⟨hle, hdel⟩

/-- C2 counterexample: a finding with line 10 in a 3-line document is rendered
by `showDiagnostics` at zero-based line 9, that is one-based line 10 — outside
the claimed range `[1, 3]`, into which the claimed clamp would map it as
line 3.  The mapper never consults the document's line count at all. -/
theorem C2_counterexample :
    (showDiagnostics [⟨none, none, some 10, none, none⟩]).map (fun d => d.line) = [9] ∧
    specClamp 10 3 = 3 ∧
    ¬((9 : Int) + 1 ≤ 3) := by
  refine ⟨by decide, by decide, by decide⟩

/-- C2 (amended): `showDiagnostics` never drops a finding — it yields exactly
one diagnostic per finding — and clamps each line from below: every rendered
one-based line is at least 1 (an absent line, line 0 and negative lines all map
to line 1); but no upper clamp against the document's line count is applied, so
a line beyond the document's end is passed through out of range. -/
theorem C2_lines_clamped_below_never_dropped (issues : List Issue) :
    (showDiagnostics issues).length = issues.length ∧
    ∀ d ∈ showDiagnostics issues, 1 ≤ d.line + 1 := by
  refine ⟨by simp [showDiagnostics], ?_⟩
  intro d hd
  simp only [showDiagnostics, List.mem_map] at hd
  obtain ⟨i, _, rfl⟩ := hd
  show 1 ≤ diagLine i.line + 1
  simp only [diagLine]
  omega

/-- Witness for C2 (amended) at a finding with line 0: one diagnostic is
produced and its one-based line is at least 1. -/
theorem C2_lines_clamped_below_never_dropped_witness :
    (showDiagnostics [⟨none, none, some 0, none, none⟩]).length =
      ([⟨none, none, some 0, none, none⟩] : List Issue).length ∧
    1 ≤ (⟨0, DiagSeverity.information, "Code quality issue detected", "UNKNOWN"⟩ :
        Diagnostic).line + 1 :=
  ⟨(C2_lines_clamped_below_never_dropped _).1,
   (C2_lines_clamped_below_never_dropped [⟨none, none, some 0, none, none⟩]).2
     ⟨0, DiagSeverity.information, "Code quality issue detected", "UNKNOWN"⟩ (by decide)⟩

/-- C8: in every trace of `handleFixCode`, a re-analysis request occurs only
after the fix response has been fully received and parsed — the trace always
contains a fix-response-parsed event strictly before any re-analysis request —
and the re-analysis request carries exactly the parsed result of the fix call,
on the re-analysis success path and on its silent-failure path alike. -/
theorem C8_reanalyze_only_after_fix_parsed
    (st : FixState) (fr : Except ReqError FixResp) (ar : Except ReqError AnalysisRes)
    (i : Nat) (c : String)
    (h : (handleFixCode st fr ar).2.get? i = some (FixEv.reanalyzeRequestSent c)) :
    ∃ j, j < i ∧
      (handleFixCode st fr ar).2.get? j = some (FixEv.fixResponseParsed c) := by
  cases hres : st.currentAnalysisResult with
  | none =>
    simp only [handleFixCode, hres] at h
    rcases i with _ | i <;> simp at h
  | some res =>
    by_cases hcc : st.currentCode = ""
    · simp only [handleFixCode, hres] at h
      rw [if_pos hcc] at h
      rcases i with _ | i <;> simp at h
    · cases har : ar with
      | ok r =>
        simp only [handleFixCode, hres, har] at h ⊢
        rw [if_neg hcc] at h ⊢
        rcases i with _ | _ | _ | _ | i <;> simp at h
        exact ⟨1, by omega, by rw [← h]; rfl⟩
      | error e =>
        simp only [handleFixCode, hres, har] at h ⊢
        rw [if_neg hcc] at h ⊢
        rcases i with _ | _ | _ | _ | i <;> simp at h
        exact ⟨1, by omega, by rw [← h]; rfl⟩

/-- Witness for C8 at a concrete state with both transports failing: the
re-analysis request at index 2 is preceded by the fix-response-parsed event. -/
theorem C8_reanalyze_only_after_fix_parsed_witness :
    ∃ j, j < 2 ∧
      (handleFixCode ⟨some ⟨90, 0⟩, "print(1)"⟩ (Except.error ReqError.axiosNetwork)
          (Except.error ReqError.axiosNetwork)).2.get? j =
        some (FixEv.fixResponseParsed "print(1)") :=
  C8_reanalyze_only_after_fix_parsed _ _ _ 2 "print(1)" rfl

end Schneider
